import Mathlib

/-!
Verification of the instant-code collaborative-editing core.

The repository ships two TypeScript sources: `src/client.ts` (the per-session
synchronization state machine) and `src/extension.ts` (UI glue).  The modules
`pid.ts`, `crdt.ts` and `protocol.ts` are imported by `client.ts` but are not
part of the source tree, so the identifier space, the sequence CRDT and the
protocol codec are modelled here from the specification; everything else is a
shallow embedding of `client.ts`.

Modelling conventions:
* Editor positions are absolute character offsets into a single-line document,
  so `document.positionAt`, `offsetAt` and `Position.translate (0, i)` become
  the identity and `+ i`.  None of the verified claims involves newlines.
* Effects on the outside world (socket writes, codec validation, error popups,
  programmatic editor edits, marker updates, closing the connection) are
  recorded as an `Event` trace returned next to the successor state.
* The asynchronous bodies in `client.ts` run each `generate`/`insert`/`send`
  (respectively `send`/`delete`) chain to completion before the next one
  starts (the callbacks suspend only on already-resolved promises), so the
  embedding threads state sequentially in source order.
-/

/-- Modelled from the spec (`pid.ts` is absent from the source tree):
a position identifier is an ordered sequence of levels, each level a
(digit, siteId) pair. -/
structure Pid where
  levels : List (Nat × Nat)
deriving DecidableEq

/-- Modelled from the spec: lexicographic comparison level-by-level on digit,
siteId as tie-break at equal digit; a strict prefix sorts before. -/
def levelsLt : List (Nat × Nat) → List (Nat × Nat) → Bool
  | [], [] => false
  | [], _ :: _ => true
  | _ :: _, [] => false
  | (d1, s1) :: t1, (d2, s2) :: t2 =>
    if d1 < d2 then true
    else if d2 < d1 then false
    else if s1 < s2 then true
    else if s2 < s1 then false
    else levelsLt t1 t2

/-- Total order on PIDs, from the spec's data model. -/
def Pid.lt (a b : Pid) : Bool := levelsLt a.levels b.levels

/-- Modelled from the spec: the maximum representable digit used as the upper
bound when `next` has no level at the current depth. -/
def maxDigit : Nat := 4294967296

/-- Modelled from the spec (`pid.generate`): scan the levels of `prev` and
`next` together; at the first depth whose digits leave a gap of at least 2,
append a digit strictly inside the gap (the model picks the lowest, `pd + 1`)
tagged with the caller's site, truncating deeper levels; otherwise copy
`prev`'s level (`(0, 0)` when absent) and descend with `prev`'s digit (or 0)
and `next`'s digit (or `maxDigit`) as the new bounds.  The fuel argument is an
upper bound on the recursion depth; both level lists shrink each step and the
gap `(0, maxDigit)` ends the scan once both are exhausted. -/
def Pid.generateGo (site : Nat) : Nat → List (Nat × Nat) → List (Nat × Nat) → List (Nat × Nat)
  | 0, _, _ => []
  | fuel + 1, ps, ns =>
    let pl := ps.headD (0, 0)
    let nd := (ns.headD (maxDigit, 0)).1
    if pl.1 + 1 < nd then [(pl.1 + 1, site)]
    else pl :: Pid.generateGo site fuel ps.tail ns.tail

/-- Modelled from the spec: produce a PID strictly between `prev` and `next`,
stamped with the generating replica's site. -/
def Pid.generate (site : Nat) (prev next : Pid) : Pid :=
  ⟨Pid.generateGo site (prev.levels.length + next.levels.length + 1) prev.levels next.levels⟩

/-- Modelled from the spec (`crdt.ts` is absent from the source tree):
the sequence CRDT keeps the ascending index of all live PIDs (the two
sentinels included) and a map from non-sentinel PIDs to their characters. -/
structure CRDT where
  sortedPids : List Pid
  assoc : List (Pid × Char)
deriving DecidableEq

/-- Insert a PID into the ascending index, returning the index position at
which it lands. -/
def insertPidIdx (p : Pid) : List Pid → Nat × List Pid
  | [] => (0, [p])
  | q :: qs =>
    if Pid.lt p q then (0, p :: q :: qs)
    else
      let r := insertPidIdx p qs
      (r.1 + 1, q :: r.2)

/-- Modelled from the spec (`crdt.insert`): insert `c` at `p` when absent,
no-op when present; return the index position at which the character now
resides (the two-sentinel offset included). -/
def CRDT.insert (crdt : CRDT) (p : Pid) (c : Char) : Nat × CRDT :=
  if crdt.sortedPids.contains p then
    (crdt.sortedPids.findIdx (· == p), crdt)
  else
    let r := insertPidIdx p crdt.sortedPids
    (r.1, ⟨r.2, (p, c) :: crdt.assoc⟩)

/-- Modelled from the spec (`crdt.delete`): remove the entry at `p`, returning
the index position it occupied, or the sentinel `-1` when `p` is absent. -/
def CRDT.delete (crdt : CRDT) (p : Pid) : Int × CRDT :=
  if crdt.sortedPids.contains p then
    ((crdt.sortedPids.findIdx (· == p) : Int),
     ⟨crdt.sortedPids.erase p, crdt.assoc.filter (fun e => !(e.1 == p))⟩)
  else (-1, crdt)

/-- Modelled from the spec (`crdt.pidAt`): the PID at materialized-text
offset `o`, i.e. index position `o + 2`. -/
def CRDT.pidAt (crdt : CRDT) (o : Nat) : Pid :=
  crdt.sortedPids.getD (o + 2) ⟨[]⟩

/-- Modelled from the spec (`crdt.charAt`): the stored character, or `none`
for a deleted or never-present PID. -/
def CRDT.charAt (crdt : CRDT) (p : Pid) : Option Char :=
  (crdt.assoc.find? (fun e => e.1 == p)).map (·.2)

/-- Modelled from the spec (`crdt.asString`): characters of all non-sentinel
PIDs in ascending index order. -/
def CRDT.asString (crdt : CRDT) : String :=
  String.mk (crdt.sortedPids.filterMap crdt.charAt)

/-- Modelled from the spec (`crdt.initialize`): one-shot bulk load of a
snapshot; `uids` is the ascending PID list (two leading sentinels included),
positionally aligned with the flattened characters of `lines`. -/
def CRDT.initSnapshot (hostId : Nat) (uids : List Pid) (lines : List String) : CRDT :=
  ⟨uids, (uids.drop 2).zip (String.intercalate "\n" lines).toList⟩

/-- Wire text operation; `ins` carries `[OP_INS, char, pid]`, `del` carries
`[OP_DEL, pid, char]`, mirroring the (swapped) field order of `client.ts`. -/
inductive TextOp where
  | ins (c : Char) (p : Pid)
  | del (p : Pid) (c : Char)
deriving DecidableEq

/-- Modelled from the spec (`protocol.ts` is absent from the source tree):
the tagged wire messages; PIDs travel in their structural form, standing for
the lossless integer encoding of `pid.serializable`. -/
inductive Message where
  | info (sessionShare : Bool) (username : String) (agent : Nat)
  | text (op : TextOp) (buffer : Nat × Nat) (clientId : Nat)
  | available (isFirst : Bool) (clientId : Nat) (sessionShare : Bool)
  | initialBuf (bufferName : String) (buffer : Nat × Nat) (uids : List Pid) (lines : List String)
  | request
deriving DecidableEq

/-- Kind of a pending programmatic edit, from `client.ts`. -/
inductive EditKind where
  | insert
  | delete
deriving DecidableEq

/-- The `activeEdit` marker of `client.ts`: kind, affected range (as editor
offsets) and replacement text. -/
structure ActiveEdit where
  kind : EditKind
  rangeStart : Int
  rangeEnd : Int
  text : String
deriving DecidableEq

/-- Observable effects of the client, recorded in source order: codec
validation, socket write, error popup, programmatic editor edits, setting and
clearing the `activeEdit` marker, closing the connection. -/
inductive Event where
  | validate (m : Message)
  | send (m : Message)
  | showError (s : String)
  | edInsert (off : Int) (t : String)
  | edDelete (off : Int) (len : Nat)
  | mark (ae : ActiveEdit)
  | clearMark
  | close
deriving DecidableEq

/-- Per-session client state, from the fields of `class Client`. -/
structure ClientState where
  isHost : Bool
  clientId : Option Nat
  bufferName : Option String
  buffer : Option (Nat × Nat)
  crdt : CRDT
  docId : Nat
  documentText : String
  hasEditor : Bool
  activeEdit : Option ActiveEdit
  closed : Bool
deriving DecidableEq

/-- One editor-surface content change event, from
`vscode.TextDocumentContentChangeEvent` (offsets, single-line model). -/
structure Change where
  rangeOffset : Nat
  rangeLength : Nat
  text : String
deriving DecidableEq

/-- `close()`: unbind the handlers and close the websocket (flag only). -/
def closeClient (st : ClientState) : ClientState := { st with closed := true }

/-- `sendMessage`: validate, then write the frame to the socket. -/
def sendMessage (st : ClientState) (m : Message) : ClientState × List Event :=
  (st, [Event.validate m, Event.send m])

/-- `sendInsert`: transmit an INSERT text operation. -/
def sendInsert (st : ClientState) (p : Pid) (c : Char) : ClientState × List Event :=
  sendMessage st (Message.text (TextOp.ins c p) (st.buffer.getD (0, 0)) (st.clientId.getD 0))

/-- `sendDelete`: transmit a DELETE text operation. -/
def sendDelete (st : ClientState) (p : Pid) (c : Char) : ClientState × List Event :=
  sendMessage st (Message.text (TextOp.del p c) (st.buffer.getD (0, 0)) (st.clientId.getD 0))

/-- `requestInitialBuffer`: send REQUEST. -/
def requestInitialBuffer (st : ClientState) : ClientState × List Event :=
  sendMessage st Message.request

/-- Tag for `protocol.VSCODE_AGENT` (value immaterial to the claims). -/
def vscodeAgentTag : Nat := 0

/-- `sendInfo`: the INFO handshake message (`session_share` hard-coded
false; the username comes from configuration). -/
def sendInfo (st : ClientState) (username : String) : ClientState × List Event :=
  sendMessage st (Message.info false username vscodeAgentTag)

/-- The `previousPid` computation of `insertFromContentChange`: the first of
`sortedPids` when the character index `i` is 0, otherwise the PID at the
translated position `rangeOffset + i - 1`. -/
def insertPrev (crdt : CRDT) (rangeOffset i : Nat) : Pid :=
  if i = 0 then crdt.sortedPids.headD ⟨[]⟩
  else crdt.pidAt (rangeOffset + i - 1)

/-- The `nextPid` computation of `insertFromContentChange`: the PID at the
translated position `rangeOffset + i` while `i < text.length - 1`, otherwise
the last of `sortedPids`. -/
def insertNext (crdt : CRDT) (rangeOffset n i : Nat) : Pid :=
  if i < n - 1 then crdt.pidAt (rangeOffset + i)
  else crdt.sortedPids.getLastD ⟨[]⟩

/-- The per-character chain of `insertFromContentChange`: look up neighbours,
`generate`, `insert` into the CRDT, then transmit; each character completes
before the next one's neighbour lookup. -/
def insertLoop (st : ClientState) (rangeOffset n : Nat) : List (Nat × Char) → ClientState × List Event
  | [] => (st, [])
  | (i, c) :: rest =>
    let prev := insertPrev st.crdt rangeOffset i
    let next := insertNext st.crdt rangeOffset n i
    let p := Pid.generate (st.clientId.getD 0) prev next
    let st1 := { st with crdt := (st.crdt.insert p c).2 }
    let se := sendInsert st1 p c
    let r := insertLoop se.1 rangeOffset n rest
    (r.1, se.2 ++ r.2)

/-- `insertFromContentChange`. -/
def insertFromContentChange (st : ClientState) (ch : Change) : ClientState × List Event :=
  insertLoop st ch.rangeOffset ch.text.length ch.text.toList.enum

/-- The DELETE transmissions of `deleteFromContentChange`; every `charAt`
lookup reads the CRDT as it stood before any of the deletions, matching the
schedule of the source (all sends run before the deferred `crdt.delete`
continuations). -/
def deleteSendEvents (st : ClientState) : List Pid → List Event
  | [] => []
  | p :: rest =>
    (sendDelete st p ((st.crdt.charAt p).getD ' ')).2 ++ deleteSendEvents st rest

/-- `deleteFromContentChange`: resolve the PID of every offset of the deleted
range against the pre-deletion CRDT, transmit a DELETE for each, then delete
them locally. -/
def deleteFromContentChange (st : ClientState) (ch : Change) : ClientState × List Event :=
  let pids := ((List.range ch.rangeLength).map (· + ch.rangeOffset)).map st.crdt.pidAt
  ({ st with crdt := pids.foldl (fun cr p => (cr.delete p).2) st.crdt },
   deleteSendEvents st pids)

/-- The insert-echo test of `handleTextChange`: pending insert marker whose
range start matches the change's offset. -/
def isInsertEcho (ae : Option ActiveEdit) (ch : Change) : Bool :=
  match ae with
  | some a => decide (a.kind = EditKind.insert ∧ (ch.rangeOffset : Int) = a.rangeStart)
  | none => false

/-- The delete-echo test of `handleTextChange`: pending delete marker whose
range equals the change's range, with empty replacement text. -/
def isDeleteEcho (ae : Option ActiveEdit) (ch : Change) : Bool :=
  match ae with
  | some a =>
    decide (a.kind = EditKind.delete ∧ (ch.rangeOffset : Int) = a.rangeStart ∧
      ((ch.rangeOffset + ch.rangeLength : Nat) : Int) = a.rangeEnd ∧ ch.text = "")
  | none => false

/-- Processing of one content change inside `handleTextChange`: pure inserts
and echo suppression on `rangeLength = 0`, otherwise echo suppression or a
delete followed (on a replace) by an insert. -/
def handleChange (st : ClientState) (ch : Change) : ClientState × List Event :=
  if ch.rangeLength = 0 then
    if isInsertEcho st.activeEdit ch then (st, [])
    else insertFromContentChange st ch
  else
    if isDeleteEcho st.activeEdit ch then (st, [])
    else
      let d := deleteFromContentChange st ch
      let r := insertFromContentChange d.1 ch
      (r.1, d.2 ++ r.2)

/-- The change list of one event, processed in order. -/
def handleChanges (st : ClientState) : List Change → ClientState × List Event
  | [] => (st, [])
  | ch :: rest =>
    let r := handleChange st ch
    let r2 := handleChanges r.1 rest
    (r2.1, r.2 ++ r2.2)

/-- `handleTextChange`: ignore events for other documents, else process the
content changes. -/
def handleTextChange (st : ClientState) (eventDoc : Nat) (changes : List Change) :
    ClientState × List Event :=
  if eventDoc ≠ st.docId then (st, [])
  else handleChanges st changes

/-- `editor()`: locate a visible editor for the session's document; on
failure surface an error and close the connection. -/
def editorFind (st : ClientState) : Bool × ClientState × List Event :=
  if st.hasEditor then (true, st, [])
  else (false, closeClient st,
        [Event.showError "Could not find editor for document", Event.close])

/-- Insert `t` into `s` at editor offset `off` (clamped, as the editor surface
clamps out-of-range positions). -/
def strInsertAt (s : String) (off : Int) (t : String) : String :=
  String.mk (s.toList.take off.toNat ++ t.toList ++ s.toList.drop off.toNat)

/-- Delete `len` characters of `s` at editor offset `off` (clamped). -/
def strDeleteAt (s : String) (off : Int) (len : Nat) : String :=
  String.mk (s.toList.take off.toNat ++ s.toList.drop (off.toNat + len))

/-- `handleRemoteInsert`: insert into the CRDT, subtract 2 from the returned
index position, set the `activeEdit` marker, apply the edit through the
located editor, then clear the marker. -/
def handleRemoteInsert (st : ClientState) (p : Pid) (c : Char) (clientId : Nat) :
    ClientState × List Event :=
  let r := st.crdt.insert p c
  let pos : Int := (r.1 : Int) - 2
  let ae : ActiveEdit := ⟨EditKind.insert, pos, pos, String.singleton c⟩
  let st1 := { st with crdt := r.2, activeEdit := some ae }
  let f := editorFind st1
  let r2 :=
    if f.1 then
      ({ f.2.1 with documentText := strInsertAt f.2.1.documentText pos (String.singleton c) },
       [Event.edInsert pos (String.singleton c)])
    else (f.2.1, ([] : List Event))
  ({ r2.1 with activeEdit := none },
   Event.mark ae :: (f.2.2 ++ r2.2 ++ [Event.clearMark]))

/-- `handleRemoteDelete`: delete from the CRDT, subtract 2 from the returned
index position, set the `activeEdit` marker, apply a one-character deletion
through the located editor; the marker is never cleared here. -/
def handleRemoteDelete (st : ClientState) (p : Pid) (c : Char) (clientId : Nat) :
    ClientState × List Event :=
  let r := st.crdt.delete p
  let pos : Int := r.1 - 2
  let ae : ActiveEdit := ⟨EditKind.delete, pos, pos + 1, ""⟩
  let st1 := { st with crdt := r.2, activeEdit := some ae }
  let f := editorFind st1
  let r2 :=
    if f.1 then
      ({ f.2.1 with documentText := strDeleteAt f.2.1.documentText pos 1 },
       [Event.edDelete pos 1])
    else (f.2.1, ([] : List Event))
  (r2.1, Event.mark ae :: (f.2.2 ++ r2.2))

/-- `handleText`: dispatch a TEXT operation on its opcode; the INSERT payload
is `[op, char, pid]` while the DELETE payload is `[op, pid, char]`. -/
def handleText (st : ClientState) (op : TextOp) (clientId : Nat) : ClientState × List Event :=
  match op with
  | TextOp.ins c p => handleRemoteInsert st p c clientId
  | TextOp.del p c => handleRemoteDelete st p c clientId

/-- `handleAvailableMessage`: fatal checks (guest-first, session share) close
the connection, after which the source still stores the assigned client id
and, on a guest, still sends REQUEST (there is no early return). -/
def handleAvailableMessage (st : ClientState) (isFirst : Bool) (clientId : Nat)
    (sessionShare : Bool) : ClientState × List Event :=
  let r1 :=
    if isFirst && !st.isHost then
      (closeClient st, [Event.showError "Error: guest was first to connect", Event.close])
    else (st, ([] : List Event))
  let r2 :=
    if sessionShare then
      (closeClient r1.1, [Event.showError "Error: session share not implemented", Event.close])
    else (r1.1, ([] : List Event))
  let st3 := { r2.1 with clientId := some clientId }
  let r3 :=
    if !st3.isHost then requestInitialBuffer st3 else (st3, ([] : List Event))
  (r3.1, r1.2 ++ r2.2 ++ r3.2)

/-- `handleInitialMessage`: record the buffer identity, bulk-load the CRDT
from the snapshot and materialize its text into the editor in one apply. -/
def handleInitialMessage (st : ClientState) (bufferName : String) (buffer : Nat × Nat)
    (uids : List Pid) (lines : List String) : ClientState × List Event :=
  let crdt := CRDT.initSnapshot buffer.2 uids lines
  let st1 := { st with bufferName := some bufferName, buffer := some buffer, crdt := crdt }
  ({ st1 with documentText := crdt.asString ++ st1.documentText },
   [Event.edInsert 0 crdt.asString])

/-- The `switch` of `handleMessage`, after validation: TEXT, AVAILABLE and
INITIAL are dispatched; any other tag surfaces an error. -/
def dispatchMessage (st : ClientState) (m : Message) : ClientState × List Event :=
  match m with
  | Message.text op _b clientId => handleText st op clientId
  | Message.available isFirst clientId sessionShare =>
    handleAvailableMessage st isFirst clientId sessionShare
  | Message.initialBuf bufferName buffer uids lines =>
    handleInitialMessage st bufferName buffer uids lines
  | _ => (st, [Event.showError "Received unhandled message"])

/-- `handleMessage`: validate the inbound frame, then dispatch it. -/
def handleMessage (st : ClientState) (m : Message) : ClientState × List Event :=
  ((dispatchMessage st m).1, Event.validate m :: (dispatchMessage st m).2)

/-- `setupHost`: unimplemented, raises. -/
def setupHost : Except String Unit := Except.error "Not implemented"

/-- `setupGuest`: registers the websocket handlers; never fails. -/
def setupGuest : Except String Unit := Except.ok ()

/-- The empty CRDT of a fresh `Client` (sentinels only), per the spec's
session lifecycle. -/
def emptyCRDT : CRDT := ⟨[⟨[(0, 0)]⟩, ⟨[(1, 0)]⟩], []⟩

/-- The `Client` constructor: initialize the fields, then run the role setup
(`setupHost` for a host, `setupGuest` for a guest); the host path raises. -/
def constructClient (isHost : Bool) (docId : Nat) (documentText : String) :
    Except String ClientState :=
  match (if isHost then setupHost else setupGuest) with
  | Except.error e => Except.error e
  | Except.ok _ =>
    Except.ok
      { isHost := isHost, clientId := none, bufferName := none, buffer := none,
        crdt := emptyCRDT, docId := docId, documentText := documentText,
        hasEditor := true, activeEdit := none, closed := false }

/-- Document-start sentinel PID of the concrete scenarios (minimal). -/
def docStartPid : Pid := ⟨[(0, 0)]⟩

/-- First-line-start sentinel PID of the concrete scenarios (second
minimal). -/
def lineStartPid : Pid := ⟨[(1, 0)]⟩

/-- PID of the character at offset 0 in the scenario snapshots. -/
def pidA : Pid := ⟨[(10, 1)]⟩

/-- PID of the character at offset 1 in the scenario snapshots. -/
def pidB : Pid := ⟨[(20, 1)]⟩

/-- PID of the character at offset 2 in the scenario snapshots. -/
def pidC : Pid := ⟨[(30, 1)]⟩

/-- CRDT materializing `"ab"`. -/
def crdtAB : CRDT :=
  ⟨[docStartPid, lineStartPid, pidA, pidB], [(pidA, 'a'), (pidB, 'b')]⟩

/-- CRDT materializing `"abc"`. -/
def crdtABC : CRDT :=
  ⟨[docStartPid, lineStartPid, pidA, pidB, pidC],
   [(pidA, 'a'), (pidB, 'b'), (pidC, 'c')]⟩

/-- A synchronized guest session over the document `"abc"`. -/
def guestState : ClientState :=
  { isHost := false, clientId := some 2, bufferName := some "buf",
    buffer := some (1, 1), crdt := crdtABC, docId := 0, documentText := "abc",
    hasEditor := true, activeEdit := none, closed := false }

/-- A synchronized guest session over the document `"ab"`. -/
def guestStateAB : ClientState :=
  { guestState with crdt := crdtAB, documentText := "ab" }

/-- `guestState` as seen when a replace change event fires: the editor
already shows the replaced text. -/
def replaceEventState : ClientState :=
  { guestState with documentText := "axc" }

/-- A guest session whose document has no visible editor. -/
def noEditorState : ClientState :=
  { guestState with hasEditor := false }

/-- A guest that has not completed the handshake yet. -/
def freshGuest : ClientState :=
  { isHost := false, clientId := none, bufferName := none, buffer := none,
    crdt := emptyCRDT, docId := 0, documentText := "", hasEditor := true,
    activeEdit := none, closed := false }

/-- Messages written to the socket in a trace, in order. -/
def sentMsgs (evs : List Event) : List Message :=
  evs.filterMap fun e =>
    match e with
    | Event.send m => some m
    | _ => none

/-- Messages passed through the codec validator in a trace, in order. -/
def validatedMsgs (evs : List Event) : List Message :=
  evs.filterMap fun e =>
    match e with
    | Event.validate m => some m
    | _ => none

/-- Text operations written to the socket in a trace, in order. -/
def sentOps (evs : List Event) : List TextOp :=
  evs.filterMap fun e =>
    match e with
    | Event.send (Message.text op _ _) => some op
    | _ => none

/-- Editor-surface edits performed in a trace. -/
def editorEdits (evs : List Event) : List Event :=
  evs.filter fun e =>
    match e with
    | Event.edInsert _ _ => true
    | Event.edDelete _ _ => true
    | _ => false

/-- Scanner for `sendsValidated`: `vs` collects the messages validated so
far; every socket write must concern an already-validated message. -/
def svGo : List Message → List Event → Bool
  | _, [] => true
  | vs, Event.validate m :: rest => svGo (m :: vs) rest
  | vs, Event.send m :: rest => if m ∈ vs then svGo vs rest else false
  | vs, _ :: rest => svGo vs rest

/-- Every socket write in the trace is preceded by a validation of the very
message being written. -/
def sendsValidated (evs : List Event) : Bool := svGo [] evs

/-- Whether a wire text operation is a DELETE. -/
def TextOp.isDel : TextOp → Bool
  | TextOp.del _ _ => true
  | _ => false

/-- Whether a wire text operation is an INSERT. -/
def TextOp.isIns : TextOp → Bool
  | TextOp.ins _ _ => true
  | _ => false

/-- The operation list consists of DELETEs followed by INSERTs. -/
def delsThenIns : List TextOp → Bool
  | [] => true
  | op :: rest =>
    if op.isDel then delsThenIns rest
    else op.isIns && rest.all TextOp.isIns

/-- Traces in which every validation is immediately followed by the write of
the same message, all other events being neither validations nor writes:
the shape produced by routing every outbound frame through `sendMessage`. -/
inductive BlockShape : List Event → Prop
  | nil : BlockShape []
  | skipShowError (s : String) (rest : List Event) :
      BlockShape rest → BlockShape (Event.showError s :: rest)
  | skipEdInsert (off : Int) (t : String) (rest : List Event) :
      BlockShape rest → BlockShape (Event.edInsert off t :: rest)
  | skipEdDelete (off : Int) (len : Nat) (rest : List Event) :
      BlockShape rest → BlockShape (Event.edDelete off len :: rest)
  | skipMark (ae : ActiveEdit) (rest : List Event) :
      BlockShape rest → BlockShape (Event.mark ae :: rest)
  | skipClearMark (rest : List Event) :
      BlockShape rest → BlockShape (Event.clearMark :: rest)
  | skipClose (rest : List Event) :
      BlockShape rest → BlockShape (Event.close :: rest)
  | block (m : Message) (rest : List Event) :
      BlockShape rest → BlockShape (Event.validate m :: Event.send m :: rest)

/-- Claim C1: refuted on the code.  For a pure insertion the claim says
`prev` is the PID at position `rangeOffset - 1` (document-start bound only
when inserting at position 0) and `next` is the PID at the current insertion
point (document-end bound only at end-of-document).  The source instead tests
the character index `i` of the inserted text: with document `"ab"`, inserting
`"x"` at offset 1 uses the document-start sentinel as `prev` (not `pidA`, the
PID at offset 0), so the generated PID sorts below `pidA` and the CRDT
materializes `"xab"`; and inserting `"x"` at offset 0 uses the last PID
`pidB` as `next` (not `pidA`, the PID at the insertion point). -/
theorem insertFromContentChange_neighbour_bug :
    insertPrev crdtAB 1 0 = docStartPid ∧
    crdtAB.pidAt 0 = pidA ∧
    docStartPid ≠ pidA ∧
    insertNext crdtAB 0 1 0 = pidB ∧
    crdtAB.pidAt 0 ≠ pidB ∧
    sentMsgs (handleTextChange guestStateAB 0 [⟨1, 0, "x"⟩]).2 =
      [Message.text (TextOp.ins 'x' ⟨[(1, 2)]⟩) (1, 1) 2] ∧
    Pid.lt ⟨[(1, 2)]⟩ pidA = true ∧
    (handleTextChange guestStateAB 0 [⟨1, 0, "x"⟩]).1.crdt.asString = "xab" := by
  decide

/-- Claim C2: refuted on the code.  After a remote DELETE apply the
`activeEdit` marker is never cleared: `handleRemoteDelete` sets it and
returns, no `clearMark` is emitted, and `handleTextChange` (which checks the
marker against the echo change) never resets it either — unlike
`handleRemoteInsert`, which does clear the marker. -/
theorem activeEdit_not_cleared_after_remote_delete :
    (handleRemoteDelete guestState pidB 'b' 9).1.activeEdit =
      some ⟨EditKind.delete, 1, 2, ""⟩ ∧
    Event.clearMark ∉ (handleRemoteDelete guestState pidB 'b' 9).2 ∧
    (handleTextChange (handleRemoteDelete guestState pidB 'b' 9).1
        (handleRemoteDelete guestState pidB 'b' 9).1.docId [⟨1, 1, ""⟩]).1.activeEdit =
      some ⟨EditKind.delete, 1, 2, ""⟩ ∧
    (handleRemoteInsert guestState ⟨[(15, 2)]⟩ 'q' 9).1.activeEdit = none := by
  decide

/-- Claim C3: refuted on the code.  On AVAILABLE with `isFirst = true` at a
guest the connection is closed, but the source has no early return: the
assigned client id is still stored and REQUEST is still sent; the same holds
for the `sessionShare = true` fatal case. -/
theorem handleAvailableMessage_no_early_return :
    (handleAvailableMessage freshGuest true 7 false).1.closed = true ∧
    (handleAvailableMessage freshGuest true 7 false).1.clientId = some 7 ∧
    Message.request ∈ sentMsgs (handleAvailableMessage freshGuest true 7 false).2 ∧
    (handleAvailableMessage freshGuest false 7 true).1.closed = true ∧
    (handleAvailableMessage freshGuest false 7 true).1.clientId = some 7 ∧
    Message.request ∈ sentMsgs (handleAvailableMessage freshGuest false 7 true).2 := by
  decide

/-- Claim C8: starting a session in the host role fails immediately and
explicitly — the constructor's host-role setup raises "Not implemented". -/
theorem constructClient_host_fails (docId : Nat) (documentText : String) :
    constructClient true docId documentText = Except.error "Not implemented" := by
  rfl

/-- Claim C9: a text-change event for a different document leaves the
session's entire state unchanged and produces no effect at all (no CRDT
mutation, no PID generation, no message). -/
theorem handleTextChange_other_document (st : ClientState) (eventDoc : Nat)
    (changes : List Change) (h : eventDoc ≠ st.docId) :
    handleTextChange st eventDoc changes = (st, []) := by
  simp [handleTextChange, h]

/-- Witness for C9 at a concrete foreign-document event. -/
theorem handleTextChange_other_document_witness :
    handleTextChange guestState 5 [⟨0, 0, "z"⟩] = (guestState, []) :=
  handleTextChange_other_document guestState 5 [⟨0, 0, "z"⟩] (by decide)

/-- Claim C10: applying a remote TEXT operation is independent of the
sender's client id — for equal operation payloads, both the dispatch
`handleText` and the full `handleMessage` path produce identical states,
identical markers and identical editor-surface edits for any two sender
ids. -/
theorem handleText_clientId_irrelevant (st : ClientState) (op : TextOp)
    (buf : Nat × Nat) (cid1 cid2 : Nat) :
    handleText st op cid1 = handleText st op cid2 ∧
    (handleMessage st (Message.text op buf cid1)).1 =
      (handleMessage st (Message.text op buf cid2)).1 ∧
    (handleMessage st (Message.text op buf cid1)).1.activeEdit =
      (handleMessage st (Message.text op buf cid2)).1.activeEdit ∧
    editorEdits (handleMessage st (Message.text op buf cid1)).2 =
      editorEdits (handleMessage st (Message.text op buf cid2)).2 := by
  cases op <;>
    refine ⟨rfl, rfl, rfl, ?_⟩ <;>
      simp only [handleMessage, dispatchMessage, editorEdits, List.filter]

/-- Claim C5: for an inbound INSERT `{char, pid}` the client inserts into
the CRDT, translates the returned index position to an editor offset by
subtracting 2, records the insert `activeEdit` marker at that offset,
applies the insert to the editor surface there, and clears the marker
afterwards. -/
theorem handleRemoteInsert_spec (st : ClientState) (p : Pid) (c : Char) (cid : Nat)
    (h : st.hasEditor = true) :
    handleRemoteInsert st p c cid =
      ({ st with crdt := (st.crdt.insert p c).2,
                 documentText := strInsertAt st.documentText (((st.crdt.insert p c).1 : Int) - 2)
                   (String.singleton c),
                 activeEdit := none },
       [Event.mark ⟨EditKind.insert, ((st.crdt.insert p c).1 : Int) - 2,
          ((st.crdt.insert p c).1 : Int) - 2, String.singleton c⟩,
        Event.edInsert (((st.crdt.insert p c).1 : Int) - 2) (String.singleton c),
        Event.clearMark]) := by
  simp [handleRemoteInsert, editorFind, h]

/-- Witness for C5: a concrete remote insert of `'q'` between `pidA` and
`pidB` in the document `"abc"` lands at CRDT index 3, editor offset 1. -/
theorem handleRemoteInsert_spec_witness :
    guestState.hasEditor = true ∧
    (handleRemoteInsert guestState ⟨[(15, 2)]⟩ 'q' 7).1.documentText = "aqbc" ∧
    (handleRemoteInsert guestState ⟨[(15, 2)]⟩ 'q' 7).1.activeEdit = none ∧
    (handleRemoteInsert guestState ⟨[(15, 2)]⟩ 'q' 7).2 =
      [Event.mark ⟨EditKind.insert, 1, 1, "q"⟩, Event.edInsert 1 "q", Event.clearMark] := by
  refine ⟨rfl, ?_, ?_, ?_⟩ <;>
    (rw [handleRemoteInsert_spec guestState ⟨[(15, 2)]⟩ 'q' 7 rfl]; try decide)

/-- Claim C7: when no visible editor exists for the session's document
during a remote apply, the editor-surface apply is aborted (no edit event),
an error is surfaced and the connection is closed — for remote INSERT and
remote DELETE alike. -/
theorem remote_apply_without_editor (st : ClientState) (p q : Pid) (c d : Char)
    (cid1 cid2 : Nat) (h : st.hasEditor = false) :
    editorEdits (handleRemoteInsert st p c cid1).2 = [] ∧
    (handleRemoteInsert st p c cid1).1.closed = true ∧
    Event.showError "Could not find editor for document" ∈ (handleRemoteInsert st p c cid1).2 ∧
    Event.close ∈ (handleRemoteInsert st p c cid1).2 ∧
    editorEdits (handleRemoteDelete st q d cid2).2 = [] ∧
    (handleRemoteDelete st q d cid2).1.closed = true ∧
    Event.showError "Could not find editor for document" ∈ (handleRemoteDelete st q d cid2).2 ∧
    Event.close ∈ (handleRemoteDelete st q d cid2).2 := by
  simp [handleRemoteInsert, handleRemoteDelete, editorFind, closeClient, h, editorEdits]

/-- Witness for C7 at a concrete editor-less session. -/
theorem remote_apply_without_editor_witness :
    noEditorState.hasEditor = false ∧
    editorEdits (handleRemoteInsert noEditorState ⟨[(15, 2)]⟩ 'q' 7).2 = [] ∧
    (handleRemoteInsert noEditorState ⟨[(15, 2)]⟩ 'q' 7).1.closed = true ∧
    editorEdits (handleRemoteDelete noEditorState pidB 'b' 7).2 = [] ∧
    (handleRemoteDelete noEditorState pidB 'b' 7).1.closed = true := by
  have h := remote_apply_without_editor noEditorState ⟨[(15, 2)]⟩ pidB 'q' 'b' 7 7 rfl
  exact ⟨rfl, h.1, h.2.1, h.2.2.2.2.1, h.2.2.2.2.2.1⟩

/-- Block-shaped traces are closed under concatenation. -/
theorem BlockShape.append {a b : List Event} (ha : BlockShape a) (hb : BlockShape b) :
    BlockShape (a ++ b) := by
  induction ha with
  | nil => simpa using hb
  | skipShowError s rest _ ih => exact BlockShape.skipShowError s _ ih
  | skipEdInsert off t rest _ ih => exact BlockShape.skipEdInsert off t _ ih
  | skipEdDelete off len rest _ ih => exact BlockShape.skipEdDelete off len _ ih
  | skipMark ae rest _ ih => exact BlockShape.skipMark ae _ ih
  | skipClearMark rest _ ih => exact BlockShape.skipClearMark _ ih
  | skipClose rest _ ih => exact BlockShape.skipClose _ ih
  | block m rest _ ih => exact BlockShape.block m _ ih

/-- In a block-shaped trace every socket write is preceded by a validation
of the written message, whatever was validated before the trace started. -/
theorem svGo_of_blockShape {l : List Event} (h : BlockShape l) :
    ∀ vs, svGo vs l = true := by
  induction h with
  | nil => intro vs; rfl
  | skipShowError s rest _ ih => intro vs; simpa [svGo] using ih vs
  | skipEdInsert off t rest _ ih => intro vs; simpa [svGo] using ih vs
  | skipEdDelete off len rest _ ih => intro vs; simpa [svGo] using ih vs
  | skipMark ae rest _ ih => intro vs; simpa [svGo] using ih vs
  | skipClearMark rest _ ih => intro vs; simpa [svGo] using ih vs
  | skipClose rest _ ih => intro vs; simpa [svGo] using ih vs
  | block m rest _ ih => intro vs; simpa [svGo] using ih (m :: vs)

/-- In a block-shaped trace the validated messages are exactly the written
messages: one validation per write, no extra validation. -/
theorem validatedMsgs_eq_sentMsgs_of_blockShape {l : List Event} (h : BlockShape l) :
    validatedMsgs l = sentMsgs l := by
  induction h with
  | nil => rfl
  | skipShowError s rest _ ih => simpa [validatedMsgs, sentMsgs] using ih
  | skipEdInsert off t rest _ ih => simpa [validatedMsgs, sentMsgs] using ih
  | skipEdDelete off len rest _ ih => simpa [validatedMsgs, sentMsgs] using ih
  | skipMark ae rest _ ih => simpa [validatedMsgs, sentMsgs] using ih
  | skipClearMark rest _ ih => simpa [validatedMsgs, sentMsgs] using ih
  | skipClose rest _ ih => simpa [validatedMsgs, sentMsgs] using ih
  | block m rest _ ih => simpa [validatedMsgs, sentMsgs] using ih

/-- `sendMessage` emits exactly one validate/send block. -/
theorem blockShape_sendMessage (st : ClientState) (m : Message) :
    BlockShape (sendMessage st m).2 :=
  BlockShape.block m [] BlockShape.nil

/-- The per-character insert chain emits one validate/send block per
character. -/
theorem blockShape_insertLoop (l : List (Nat × Char)) :
    ∀ st ro n, BlockShape (insertLoop st ro n l).2 := by
  induction l with
  | nil => intro st ro n; exact BlockShape.nil
  | cons x rest ih =>
    intro st ro n
    obtain ⟨i, c⟩ := x
    simp only [insertLoop]
    exact BlockShape.append (blockShape_sendMessage _ _) (ih _ _ _)

/-- The delete transmissions emit one validate/send block per deleted
PID. -/
theorem blockShape_deleteSendEvents (pids : List Pid) (st : ClientState) :
    BlockShape (deleteSendEvents st pids) := by
  induction pids with
  | nil => exact BlockShape.nil
  | cons p rest ih =>
    simp only [deleteSendEvents]
    exact BlockShape.append (blockShape_sendMessage _ _) ih

/-- Each content change produces a block-shaped trace. -/
theorem blockShape_handleChange (st : ClientState) (ch : Change) :
    BlockShape (handleChange st ch).2 := by
  unfold handleChange
  split
  · split
    · exact BlockShape.nil
    · exact blockShape_insertLoop _ _ _ _
  · split
    · exact BlockShape.nil
    · exact BlockShape.append (blockShape_deleteSendEvents _ _) (blockShape_insertLoop _ _ _ _)

/-- A change list produces a block-shaped trace. -/
theorem blockShape_handleChanges (chs : List Change) :
    ∀ st, BlockShape (handleChanges st chs).2 := by
  induction chs with
  | nil => intro st; exact BlockShape.nil
  | cons ch rest ih =>
    intro st
    simp only [handleChanges]
    exact BlockShape.append (blockShape_handleChange _ _) (ih _)

/-- An editor change event produces a block-shaped trace. -/
theorem blockShape_handleTextChange (st : ClientState) (d : Nat) (chs : List Change) :
    BlockShape (handleTextChange st d chs).2 := by
  unfold handleTextChange
  split
  · exact BlockShape.nil
  · exact blockShape_handleChanges _ _

/-- A remote insert apply produces a block-shaped trace (it sends
nothing). -/
theorem blockShape_handleRemoteInsert (st : ClientState) (p : Pid) (c : Char) (cid : Nat) :
    BlockShape (handleRemoteInsert st p c cid).2 := by
  by_cases h : st.hasEditor <;>
    simp [handleRemoteInsert, editorFind, h] <;>
    repeat constructor

/-- A remote delete apply produces a block-shaped trace (it sends
nothing). -/
theorem blockShape_handleRemoteDelete (st : ClientState) (p : Pid) (c : Char) (cid : Nat) :
    BlockShape (handleRemoteDelete st p c cid).2 := by
  by_cases h : st.hasEditor <;>
    simp [handleRemoteDelete, editorFind, h] <;>
    repeat constructor

/-- The post-validation dispatch of an inbound message produces a
block-shaped trace: its only socket write, a guest's REQUEST answering
AVAILABLE, goes through its own `sendMessage` block. -/
theorem blockShape_dispatchMessage (st : ClientState) (m : Message) :
    BlockShape (dispatchMessage st m).2 := by
  cases m with
  | text op b cid =>
    cases op with
    | ins c p => exact blockShape_handleRemoteInsert st p c cid
    | del p c => exact blockShape_handleRemoteDelete st p c cid
  | available f cid ss =>
    unfold dispatchMessage handleAvailableMessage requestInitialBuffer
    dsimp only
    split <;> split <;> split <;>
      repeat first
        | exact BlockShape.nil
        | apply BlockShape.append
        | apply blockShape_sendMessage
        | constructor
  | initialBuf a b u l =>
    exact BlockShape.skipEdInsert _ _ _ BlockShape.nil
  | info a b c =>
    exact BlockShape.skipShowError _ _ BlockShape.nil
  | request =>
    exact BlockShape.skipShowError _ _ BlockShape.nil

/-- Claim C6: the codec validator sits exactly once on each side of the
socket.  Every outbound frame is validated immediately before the write
(`sendMessage`); an inbound frame is validated first, before any handler
effect; the validations occurring while processing an inbound message are
exactly the inbound message itself plus one per outbound write it triggers;
and on every entry point (inbound message handling, editor change handling)
each write is preceded by a validation of the written message. -/
theorem message_validation_discipline :
    (∀ st m, (sendMessage st m).2 = [Event.validate m, Event.send m]) ∧
    (∀ st m, (handleMessage st m).2.head? = some (Event.validate m)) ∧
    (∀ st m, validatedMsgs (handleMessage st m).2 = m :: sentMsgs (handleMessage st m).2) ∧
    (∀ st m, sendsValidated (handleMessage st m).2 = true) ∧
    (∀ st d chs, sendsValidated (handleTextChange st d chs).2 = true) := by
  refine ⟨fun st m => rfl, fun st m => rfl, ?_, ?_, ?_⟩
  · intro st m
    have h := validatedMsgs_eq_sentMsgs_of_blockShape (blockShape_dispatchMessage st m)
    simp only [handleMessage, validatedMsgs, sentMsgs, List.filterMap_cons] at h ⊢
    simpa using h
  · intro st m
    have h := svGo_of_blockShape (blockShape_dispatchMessage st m)
    simpa [handleMessage, sendsValidated, svGo] using h [m]
  · intro st d chs
    exact svGo_of_blockShape (blockShape_handleTextChange st d chs) []

/-- The wire operations of a concatenated trace. -/
theorem sentOps_append (a b : List Event) : sentOps (a ++ b) = sentOps a ++ sentOps b := by
  simp [sentOps, List.filterMap_append]

/-- The delete transmissions put only DELETE operations on the wire. -/
theorem sentOps_deleteSendEvents (pids : List Pid) (st : ClientState) :
    (sentOps (deleteSendEvents st pids)).all TextOp.isDel = true := by
  induction pids with
  | nil => rfl
  | cons p rest ih =>
    simpa [deleteSendEvents, sentOps, sendDelete, sendMessage, List.filterMap_append,
      TextOp.isDel] using ih

/-- The insert chain puts only INSERT operations on the wire. -/
theorem sentOps_insertLoop (l : List (Nat × Char)) :
    ∀ st ro n, (sentOps (insertLoop st ro n l).2).all TextOp.isIns = true := by
  induction l with
  | nil => intro st ro n; rfl
  | cons x rest ih =>
    intro st ro n
    obtain ⟨i, c⟩ := x
    simpa [insertLoop, sentOps, sendInsert, sendMessage, List.filterMap_append,
      TextOp.isIns] using ih _ ro n

/-- A list of INSERT operations is (vacuously) deletes-then-inserts. -/
theorem delsThenIns_of_all_ins (b : List TextOp) (hb : b.all TextOp.isIns = true) :
    delsThenIns b = true := by
  cases b with
  | nil => rfl
  | cons op rest =>
    simp only [List.all_cons, Bool.and_eq_true] at hb
    cases op with
    | ins c p => simp [delsThenIns, TextOp.isDel, TextOp.isIns, hb.2]
    | del p c => simp [TextOp.isIns] at hb

/-- DELETEs followed by INSERTs is deletes-then-inserts. -/
theorem delsThenIns_append (a b : List TextOp) (ha : a.all TextOp.isDel = true)
    (hb : b.all TextOp.isIns = true) : delsThenIns (a ++ b) = true := by
  induction a with
  | nil => simpa using delsThenIns_of_all_ins b hb
  | cons op rest ih =>
    simp only [List.all_cons, Bool.and_eq_true] at ha
    simp [delsThenIns, ha.1]
    exact ih ha.2

/-- Claim C4: a replace runs the deletion phase fully before the insertion
phase, so the wire carries every DELETE before every INSERT (proved for all
non-echo changes with `rangeLength > 0`).  At the claim's example — replacing
`"b"` of `"abc"` by `"x"` — the wire sequence is `DELETE{pid:pidB, char:'b'}`
then `INSERT{char:'x', pid:pidX}` as claimed, but the resulting CRDT text is
`"xac"`, not `"axc"`: the insertion phase generates `pidX` between the
document-start sentinel and the last live PID (`insertPrev`/`insertNext`
test the character index instead of the document position, cf. C1), so under
the modelled lowest-digit `generate` the new character lands before
`"a"`. -/
theorem replace_dels_then_ins :
    (∀ st ch, ch.rangeLength ≠ 0 → isDeleteEcho st.activeEdit ch = false →
      delsThenIns (sentOps (handleChange st ch).2) = true) ∧
    sentMsgs (handleTextChange replaceEventState 0 [⟨1, 1, "x"⟩]).2 =
      [Message.text (TextOp.del pidB 'b') (1, 1) 2,
       Message.text (TextOp.ins 'x' ⟨[(1, 2)]⟩) (1, 1) 2] ∧
    (handleTextChange replaceEventState 0 [⟨1, 1, "x"⟩]).1.crdt.asString = "xac" ∧
    "xac" ≠ "axc" := by
  refine ⟨?_, by decide, by decide, by decide⟩
  intro st ch h1 h2
  simp only [handleChange, h1, h2, if_false, Bool.false_eq_true]
  rw [sentOps_append]
  exact delsThenIns_append _ _ (sentOps_deleteSendEvents _ _) (sentOps_insertLoop _ _ _ _)

/-- Witness for C4's universally quantified part at the example replace. -/
theorem replace_dels_then_ins_witness :
    (⟨1, 1, "x"⟩ : Change).rangeLength ≠ 0 ∧
    isDeleteEcho replaceEventState.activeEdit ⟨1, 1, "x"⟩ = false ∧
    delsThenIns (sentOps (handleChange replaceEventState ⟨1, 1, "x"⟩).2) = true :=
  ⟨by decide, by decide,
   replace_dels_then_ins.1 replaceEventState ⟨1, 1, "x"⟩ (by decide) (by decide)⟩
